import Mathlib

/-!
Shallow embedding of the vpn-check popup core (src: the React popup component).

The two non-trivial behaviours are embedded:
  * the latency estimator (`singlePing`, `testAverageConnection`);
  * the chat flow (`sendChatMessage`) with its server-sent-event stream
    reducer (chunk splitting, `data: ` framing, JSON envelope decoding,
    transcript mutation).

Network I/O and timers are modelled by passing the outcomes explicitly
(`PingFetch`, `FetchOutcome`): each constructor corresponds to one way the
`fetch` promise can resolve or reject in the source.  JavaScript strings are
modelled as Lean `String`s, JSON.parse as an executable recursive-descent
parser over the JSON grammar, and `Math.round(a / b)` on non-negative exact
values as `jsRound`.
-/

set_option maxRecDepth 10000

namespace VpnCheck

/-! ### JSON values and `JSON.parse`

`JSON.parse` is embedded as an executable parser over the JSON grammar
(values, objects, arrays, strings with escapes, numbers, literals,
whitespace).  Numbers are kept exact as `mantissa * 10 ^ exp10`; the source
payloads compared by the claims contain only strings and objects. -/

inductive Json where
  | null
  | bool (b : Bool)
  | num (mantissa : Int) (exp10 : Int)
  | str (s : String)
  | arr (elems : List Json)
  | obj (fields : List (String × Json))

/-- JSON insignificant whitespace (space, tab, line feed, carriage return). -/
def isJsonWs (c : Char) : Bool :=
  c == ' ' || c == '\t' || c == '\n' || c == '\r'

/-- Skip insignificant whitespace. -/
def skipWs (cs : List Char) : List Char :=
  cs.dropWhile isJsonWs

/-- Value of a hexadecimal digit, if the character is one. -/
def hexVal (c : Char) : Option Nat :=
  if '0' ≤ c ∧ c ≤ '9' then some (c.toNat - '0'.toNat)
  else if 'a' ≤ c ∧ c ≤ 'f' then some (c.toNat - 'a'.toNat + 10)
  else if 'A' ≤ c ∧ c ≤ 'F' then some (c.toNat - 'A'.toNat + 10)
  else none

/-- Single-character JSON string escapes. -/
def escChar (c : Char) : Option Char :=
  if c = '"' then some '"'
  else if c = '\\' then some '\\'
  else if c = '/' then some '/'
  else if c = 'b' then some (Char.ofNat 8)
  else if c = 'f' then some (Char.ofNat 12)
  else if c = 'n' then some '\n'
  else if c = 'r' then some '\r'
  else if c = 't' then some '\t'
  else none

/-- Body of a JSON string literal after the opening quote: returns the decoded
characters and the input after the closing quote.  Raw control characters
below U+0020 are rejected, as in `JSON.parse`. -/
def parseStringBody : Nat → List Char → Option (List Char × List Char)
  | 0, _ => none
  | _, [] => none
  | fuel + 1, c :: cs =>
    if c = '"' then some ([], cs)
    else if c = '\\' then
      match cs with
      | 'u' :: h1 :: h2 :: h3 :: h4 :: cs2 =>
        match hexVal h1, hexVal h2, hexVal h3, hexVal h4 with
        | some a, some b, some d, some e =>
          (parseStringBody fuel cs2).map fun r =>
            (Char.ofNat (((a * 16 + b) * 16 + d) * 16 + e) :: r.1, r.2)
        | _, _, _, _ => none
      | e :: cs2 =>
        match escChar e with
        | some ch => (parseStringBody fuel cs2).map fun r => (ch :: r.1, r.2)
        | none => none
      | [] => none
    else if c.toNat < 32 then none
    else (parseStringBody fuel cs).map fun r => (c :: r.1, r.2)

/-- Decimal value of a digit list. -/
def digitsToNat (ds : List Char) : Nat :=
  ds.foldl (fun acc c => acc * 10 + (c.toNat - '0'.toNat)) 0

/-- Optional fraction part `.digits`; a dot not followed by a digit is left in
the input (the surrounding grammar then rejects it, as `JSON.parse` does). -/
def parseFrac : List Char → List Char × List Char
  | '.' :: rest =>
    let p := rest.span Char.isDigit
    if p.1 = [] then ([], '.' :: rest) else (p.1, p.2)
  | cs => ([], cs)

/-- Optional exponent part `e[+-]digits` (same leniency as `parseFrac`). -/
def parseExp (cs : List Char) : Int × List Char :=
  match cs with
  | c :: rest =>
    if c = 'e' ∨ c = 'E' then
      let signAndRest : Bool × List Char :=
        match rest with
        | '+' :: r => (false, r)
        | '-' :: r => (true, r)
        | r => (false, r)
      let p := signAndRest.2.span Char.isDigit
      if p.1 = [] then (0, c :: rest)
      else ((if signAndRest.1 then -(digitsToNat p.1 : Int) else (digitsToNat p.1 : Int)), p.2)
    else (0, c :: rest)
  | [] => (0, [])

/-- Assemble a parsed JSON number from its parts. -/
def mkNum (neg : Bool) (ip : Nat) (fds : List Char) (e : Int) : Json :=
  let m : Int := Int.ofNat (ip * 10 ^ fds.length + digitsToNat fds)
  Json.num (if neg then -m else m) (e - Int.ofNat fds.length)

/-- Parse a JSON number starting at the current position. -/
def parseNumberChars (cs : List Char) : Option (Json × List Char) :=
  let signAndRest : Bool × List Char :=
    match cs with
    | '-' :: rest => (true, rest)
    | _ => (false, cs)
  match signAndRest.2 with
  | [] => none
  | c :: rest =>
    if c = '0' then
      let f := parseFrac rest
      let ex := parseExp f.2
      some (mkNum signAndRest.1 0 f.1 ex.1, ex.2)
    else if c.isDigit then
      let p := (c :: rest).span Char.isDigit
      let f := parseFrac p.2
      let ex := parseExp f.2
      some (mkNum signAndRest.1 (digitsToNat p.1) f.1 ex.1, ex.2)
    else none

mutual

/-- Parse one JSON value.  The fuel argument bounds the recursion depth; the
top-level entry point supplies more fuel than any input can consume (each
unit of nesting consumes at least one input character and at most three fuel
units along any call chain). -/
def parseValue : Nat → List Char → Option (Json × List Char)
  | 0, _ => none
  | fuel + 1, cs =>
    match skipWs cs with
    | [] => none
    | c :: rest =>
      if c = '"' then
        match parseStringBody (rest.length + 1) rest with
        | some (chars, r) => some (Json.str (String.mk chars), r)
        | none => none
      else if c = '\x7b' then parseObjBody fuel rest
      else if c = '[' then parseArrBody fuel rest
      else if c = 't' then
        match rest with
        | 'r' :: 'u' :: 'e' :: r => some (Json.bool true, r)
        | _ => none
      else if c = 'f' then
        match rest with
        | 'a' :: 'l' :: 's' :: 'e' :: r => some (Json.bool false, r)
        | _ => none
      else if c = 'n' then
        match rest with
        | 'u' :: 'l' :: 'l' :: r => some (Json.null, r)
        | _ => none
      else if c = '-' ∨ c.isDigit then parseNumberChars (c :: rest)
      else none

/-- After the opening brace of an object. -/
def parseObjBody : Nat → List Char → Option (Json × List Char)
  | 0, _ => none
  | fuel + 1, cs =>
    match skipWs cs with
    | '\x7d' :: r => some (Json.obj [], r)
    | cs2 => (parseMembers fuel cs2).map fun p => (Json.obj p.1, p.2)

/-- One or more `"key": value` members, ending at the closing brace. -/
def parseMembers : Nat → List Char → Option (List (String × Json) × List Char)
  | 0, _ => none
  | fuel + 1, cs =>
    match skipWs cs with
    | '"' :: rest =>
      match parseStringBody (rest.length + 1) rest with
      | some (keyChars, r1) =>
        match skipWs r1 with
        | ':' :: r2 =>
          match parseValue fuel r2 with
          | some (v, r3) =>
            match skipWs r3 with
            | ',' :: r4 =>
              (parseMembers fuel r4).map fun p => ((String.mk keyChars, v) :: p.1, p.2)
            | '\x7d' :: r4 => some ([(String.mk keyChars, v)], r4)
            | _ => none
          | none => none
        | _ => none
      | none => none
    | _ => none

/-- After the opening bracket of an array. -/
def parseArrBody : Nat → List Char → Option (Json × List Char)
  | 0, _ => none
  | fuel + 1, cs =>
    match skipWs cs with
    | ']' :: r => some (Json.arr [], r)
    | cs2 => (parseElements fuel cs2).map fun p => (Json.arr p.1, p.2)

/-- One or more array elements, ending at the closing bracket. -/
def parseElements : Nat → List Char → Option (List Json × List Char)
  | 0, _ => none
  | fuel + 1, cs =>
    match parseValue fuel cs with
    | some (v, r1) =>
      match skipWs r1 with
      | ',' :: r2 => (parseElements fuel r2).map fun p => (v :: p.1, p.2)
      | ']' :: r2 => some ([v], r2)
      | _ => none
    | none => none

end

/-- Embeds `JSON.parse(s)`: parse one value and require that only whitespace
remains; `none` models the thrown `SyntaxError`. -/
def Json.parse (s : String) : Option Json :=
  match parseValue (3 * s.length + 8) s.toList with
  | some (v, rest) => if skipWs rest = [] then some v else none
  | none => none

/-- Property access `obj[key]` on a parsed JSON value: `none` both when the
value is not an object and when the key is absent (JavaScript `undefined`).
With duplicate keys `JSON.parse` keeps the last occurrence, so the last
binding wins. -/
def lookupLast (fields : List (String × Json)) (key : String) : Option Json :=
  match fields with
  | [] => none
  | (k, v) :: rest =>
    match lookupLast rest key with
    | some r => some r
    | none => if k = key then some v else none

/-- `j?.[key]` — field access with optional-chaining semantics. -/
def getField (j : Json) (key : String) : Option Json :=
  match j with
  | Json.obj fields => lookupLast fields key
  | _ => none

/-! ### JavaScript string helpers

`String.prototype.split('\n')`, `trim()` and prefix stripping are embedded
at the character-list level so that every definition reduces inside the
kernel. -/

/-- `chunk.split('\n')` on character lists: `""` splits to `[""]`, a trailing
newline yields a trailing empty piece, exactly as in JavaScript. -/
def splitCharsOnNl : List Char → List (List Char)
  | [] => [[]]
  | c :: rest =>
    let r := splitCharsOnNl rest
    if c = '\n' then [] :: r
    else
      match r with
      | [] => [[c]]
      | h :: t => (c :: h) :: t

/-- `chunk.split('\n')` on strings. -/
def splitLines (s : String) : List String :=
  (splitCharsOnNl s.toList).map String.mk

/-- JavaScript whitespace for `trim()` (the characters that can occur in the
modelled inputs; the full ECMAScript set also has Unicode spaces). -/
def jsIsWs (c : Char) : Bool :=
  c == ' ' || c == '\t' || c == '\n' || c == '\r' || c == '\x0b' || c == '\x0c'

/-- `s.trim()`. -/
def jsTrim (s : String) : String :=
  String.mk (((s.toList.dropWhile jsIsWs).reverse.dropWhile jsIsWs).reverse)

/-- If `tag` is a prefix of `cs`, the remainder; embeds the
`line.startsWith(tag)` test combined with `line.slice(tag.length)`. -/
def dropTag : List Char → List Char → Option (List Char)
  | [], rest => some rest
  | _, [] => none
  | p :: ps, c :: cs => if p = c then dropTag ps cs else none

/-- `line.startsWith('data: ') ? line.slice(6) : undefined`. -/
def stripDataTag (line : String) : Option String :=
  (dropTag "data: ".toList line.toList).map String.mk

/-! ### Chat transcript model -/

inductive Role where
  | user
  | assistant
deriving DecidableEq

/-- One transcript turn (`ChatMessage` in the source). -/
structure ChatMessage where
  role : Role
  content : String
deriving DecidableEq

/-- The `setChatMessages` updater used both by the stream reducer and the
error handler: copy the array, and if the entry at the last index is an
assistant turn replace its `content` with `f content` (spread keeps the
role); otherwise leave the array unchanged.  An empty transcript is
unchanged (`updated[-1]?.role` is `undefined`). -/
def updateLast (msgs : List ChatMessage) (f : String → String) : List ChatMessage :=
  match msgs.getLast? with
  | some last =>
    if last.role = Role.assistant then
      msgs.dropLast ++ [⟨Role.assistant, f last.content⟩]
    else msgs
  | none => msgs

/-- Stream-fragment update: `content: updated[lastIdx].content + text`. -/
def appendToLast (msgs : List ChatMessage) (text : String) : List ChatMessage :=
  updateLast msgs (fun c => c ++ text)

/-- Failure update: `content: Error: ...` (wholesale replacement). -/
def setErrorOnLast (msgs : List ChatMessage) (m : String) : List ChatMessage :=
  updateLast msgs (fun _ => "Error: " ++ m)

/-- `parsed.type === 'content-delta'`. -/
def isContentDelta (j : Json) : Bool :=
  match getField j "type" with
  | some (Json.str s) => s == "content-delta"
  | _ => false

/-- `parsed.delta?.message?.content?.text || ''` for the string-valued or
absent paths the API produces: the string at the path, or `""` when any
step of the path is missing or the final value is not a string. -/
def deltaText (j : Json) : String :=
  match getField j "delta" >>= (fun d => getField d "message") >>=
      (fun m => getField m "content") >>= (fun c => getField c "text") with
  | some (Json.str s) => s
  | _ => ""

/-- The body of `for (const line of lines)`: strip the `data: ` tag, skip the
`[DONE]` sentinel, ignore payloads that `JSON.parse` rejects, and on a
`content-delta` envelope append the extracted fragment to the last
transcript turn. -/
def processLine (msgs : List ChatMessage) (line : String) : List ChatMessage :=
  match stripDataTag line with
  | none => msgs
  | some data =>
    if data = "[DONE]" then msgs
    else
      match Json.parse data with
      | none => msgs
      | some parsed =>
        if isContentDelta parsed then appendToLast msgs (deltaText parsed)
        else msgs

/-- One iteration of the read loop: decode a chunk, split it on newlines and
process each line.  The split is per chunk — no partial-line buffer is
carried to the next read. -/
def processChunk (msgs : List ChatMessage) (chunk : String) : List ChatMessage :=
  (splitLines chunk).foldl processLine msgs

/-- The whole `while (true) ... reader.read()` loop over the decoded chunks. -/
def processStream (msgs : List ChatMessage) (chunks : List String) : List ChatMessage :=
  chunks.foldl processChunk msgs

/-- A response body stream: the chunks delivered by successive
`reader.read()` calls and, optionally, the message of an error thrown by a
read after those chunks (caught by the surrounding `try`). -/
structure StreamBody where
  chunks : List String
  readFailure : Option String

/-- How the `fetch('https://api.cohere.com/v2/chat', ...)` promise settles:
a network-level rejection carrying `err.message`, or a response with an HTTP
status and an optional body (`response.body` can be `null`, which the source
reports as `No response body`). -/
inductive FetchOutcome where
  | networkError (msg : String)
  | response (status : Nat) (body : Option StreamBody)

/-- The chat state touched by `sendChatMessage`. -/
structure ChatState where
  chatMessages : List ChatMessage
  chatInput : String
  chatLoading : Bool
deriving DecidableEq

/-- `response.ok` per the WHATWG fetch standard: status in the range
200–299. -/
def responseOk (status : Nat) : Bool :=
  decide (200 ≤ status ∧ status ≤ 299)

/-- The `try`/`catch` body of `sendChatMessage`, acting on the transcript
that already holds the new user turn and the freshly created empty assistant
turn.  A missing (or empty, hence falsy) `VITE_COHERE_KEY` throws before the
request; a non-ok status throws `API error: <status>`; a null body throws
`No response body`; otherwise the stream is reduced and a read failure, if
any, is caught after the chunks read so far were processed.  Every caught
error overwrites the last assistant turn with `Error: <message>`. -/
def runBody (msgs : List ChatMessage) (apiKey : Option String)
    (outcome : FetchOutcome) : List ChatMessage :=
  match apiKey with
  | none => setErrorOnLast msgs "VITE_COHERE_KEY not set"
  | some _ =>
    match outcome with
    | FetchOutcome.networkError m => setErrorOnLast msgs m
    | FetchOutcome.response status body =>
      if responseOk status then
        match body with
        | none => setErrorOnLast msgs "No response body"
        | some sb =>
          let streamed := processStream msgs sb.chunks
          match sb.readFailure with
          | some m => setErrorOnLast streamed m
          | none => streamed
      else setErrorOnLast msgs ("API error: " ++ toString status)

/-- `sendChatMessage`: reject the submission while one is in flight or when
the trimmed input is empty; otherwise clear the input, append the user turn
and an empty assistant turn, run the exchange, and finally clear the loading
flag. -/
def sendChatMessage (st : ChatState) (apiKey : Option String)
    (outcome : FetchOutcome) : ChatState :=
  if jsTrim st.chatInput = "" ∨ st.chatLoading then st
  else
    let userMessage := jsTrim st.chatInput
    let msgs1 := st.chatMessages ++ [⟨Role.user, userMessage⟩, ⟨Role.assistant, ""⟩]
    { chatMessages := runBody msgs1 apiKey outcome
      chatInput := ""
      chatLoading := false }

/-- Content of the transcript's last turn, if any. -/
def lastContent (msgs : List ChatMessage) : Option String :=
  msgs.getLast?.map ChatMessage.content

/-! ### Latency estimator -/

/-- How the probe `fetch('https://www.cloudflare.com/cdn-cgi/trace', ...)`
settles: rejection, or a response with an HTTP status; `elapsed` is the
already-rounded `Math.round(endTime - startTime)` of the monotonic
`performance.now()` readings. -/
inductive PingFetch where
  | fetchFailed
  | resolved (status : Nat) (elapsed : Nat)

/-- `singlePing`: the elapsed integer milliseconds when the fetch resolves
with `response.ok` (status 200–299), `null` on a non-ok status or a network
failure. -/
def singlePing : PingFetch → Option Nat
  | PingFetch.fetchFailed => none
  | PingFetch.resolved status elapsed =>
    if responseOk status then some elapsed else none

inductive PingStatus where
  | pending
  | success
  | error
deriving DecidableEq

/-- `PingResult` from the source; the optional TypeScript fields are
`Option`s, `none` when the field is absent from the object literal. -/
structure PingResult where
  url : String
  latency : Option Nat
  status : PingStatus
  isAverage : Option Bool
  testCount : Option Nat
  allLatencies : Option (List Nat)
deriving DecidableEq

/-- `Math.round(num / den)` for non-negative exact operands: round half
away from zero, i.e. `⌊num / den + 1 / 2⌋`. -/
def jsRound (num den : Nat) : Nat :=
  (2 * num + den) / (2 * den)

/-- Observable events of the `testAverageConnection` loop, in order: the
`setAvgProgress` calls, the probes themselves (with the 1-based index and
the probe's outcome) and the inter-probe `setTimeout` sleeps. -/
inductive AvgEvent where
  | progress (n : Nat)
  | probe (idx : Nat) (result : Option Nat)
  | sleep (ms : Nat)
deriving DecidableEq

/-- Event trace of the `for (let i = 0; i < TEST_COUNT; i++)` loop starting
at index `i`: each iteration calls `setAvgProgress(i + 1)`, then awaits the
probe, then sleeps 200 ms unless it was the last iteration. -/
def avgLoopEvents : Nat → List (Option Nat) → List AvgEvent
  | _, [] => []
  | i, o :: rest =>
    let tail :=
      match rest with
      | [] => []
      | _ :: _ => AvgEvent.sleep 200 :: avgLoopEvents (i + 1) rest
    AvgEvent.progress (i + 1) :: AvgEvent.probe (i + 1) o :: tail

/-- `testAverageConnection`, parametric in the probe outcomes (the source
fixes `TEST_COUNT = 5` probes; the spec's `probeAverage` takes the count as
a parameter).  Returns the loop's event trace and the final `PingResult`:
the successful latencies are accumulated in order; with at least one
success the result carries `Math.round` of their mean, their count and the
sample list; with none it is an error result without numeric fields. -/
def testAverageConnection (outcomes : List (Option Nat)) :
    List AvgEvent × PingResult :=
  let events := avgLoopEvents 0 outcomes
  let latencies := outcomes.filterMap id
  if 0 < latencies.length then
    (events,
      { url := "cloudflare.com"
        latency := some (jsRound latencies.sum latencies.length)
        status := PingStatus.success
        isAverage := some true
        testCount := some latencies.length
        allLatencies := some latencies })
  else
    (events,
      { url := "cloudflare.com"
        latency := none
        status := PingStatus.error
        isAverage := some true
        testCount := none
        allLatencies := none })

/-- `Math.min(...l)` for the non-empty sample lists it is applied to. -/
def minList : List Nat → Nat
  | [] => 0
  | x :: xs => xs.foldl Nat.min x

/-- `Math.max(...l)` for the non-empty sample lists it is applied to. -/
def maxList : List Nat → Nat
  | [] => 0
  | x :: xs => xs.foldl Nat.max x

/-! ### Concrete inputs from the spec's testable properties -/

/-- Payload of the first `content-delta` event of the spec's stream test. -/
def exPayload1 : String :=
  "\x7b\"type\":\"content-delta\",\"delta\":\x7b\"message\":\x7b\"content\":\x7b\"text\":\"Hi\"\x7d\x7d\x7d\x7d"

/-- Payload of the second `content-delta` event of the spec's stream test. -/
def exPayload2 : String :=
  "\x7b\"type\":\"content-delta\",\"delta\":\x7b\"message\":\x7b\"content\":\x7b\"text\":\" there\"\x7d\x7d\x7d\x7d"

/-- First chunk of the spec's stream test. -/
def exChunk1 : String := "data: " ++ exPayload1 ++ "\n"

/-- Second chunk of the spec's stream test. -/
def exChunk2 : String := "data: " ++ exPayload2 ++ "\n"

/-- Terminal sentinel chunk of the spec's stream test. -/
def exChunk3 : String := "data: [DONE]\n"

/-- The first event as a single line (no trailing newline). -/
def exLine1 : String := "data: " ++ exPayload1

/-- The envelope `JSON.parse` produces for `exPayload1`. -/
def exJson1 : Json :=
  Json.obj [("type", Json.str "content-delta"),
    ("delta", Json.obj [("message",
      Json.obj [("content", Json.obj [("text", Json.str "Hi")])])])]

/-- A transcript at request start: the user turn and the freshly created
empty assistant turn. -/
def chatEx0 : List ChatMessage := [⟨Role.user, "hi"⟩, ⟨Role.assistant, ""⟩]

/-- First half of `exChunk1` when the event line is split across two reads. -/
def exSplitA : String := "data: \x7b\"type\":\"content-de"

/-- Second half of `exChunk1` when the event line is split across two reads. -/
def exSplitB : String :=
  "lta\",\"delta\":\x7b\"message\":\x7b\"content\":\x7b\"text\":\"Hi\"\x7d\x7d\x7d\x7d\n"

/-- A keep-alive-style line whose payload `JSON.parse` rejects. -/
def exBadChunk : String := "data: not-json\n"

/-- Selects the externally visible callback and probe events of the
averaged-test trace (discards the inter-probe sleeps). -/
def notSleep : AvgEvent → Bool
  | AvgEvent.sleep _ => false
  | _ => true

/-- Follows the claim's wording for the progress callback, to be compared
with `avgLoopEvents`: the trace the loop would produce if the callback fired
with the 1-based index after each probe completes (instead of before it
starts). -/
def c8ClaimEvents : Nat → List (Option Nat) → List AvgEvent
  | _, [] => []
  | i, o :: rest =>
    let tail :=
      match rest with
      | [] => []
      | _ :: _ => AvgEvent.sleep 200 :: c8ClaimEvents (i + 1) rest
    AvgEvent.probe (i + 1) o :: AvgEvent.progress (i + 1) :: tail

/-! ### Helper lemmas -/

theorem dropTag_append (p rest : List Char) : dropTag p (p ++ rest) = some rest := by
  induction p with
  | nil => simp [dropTag]
  | cons c cs ih => simp [dropTag, ih]

theorem stripDataTag_eq (line payload : String)
    (h : line.toList = "data: ".toList ++ payload.toList) :
    stripDataTag line = some payload := by
  unfold stripDataTag
  rw [h, dropTag_append]
  rfl

theorem updateLast_concat (base : List ChatMessage) (c : String) (f : String → String) :
    updateLast (base ++ [⟨Role.assistant, c⟩]) f = base ++ [⟨Role.assistant, f c⟩] := by
  simp [updateLast, List.getLast?_concat, List.dropLast_concat]

theorem setErrorOnLast_concat (base : List ChatMessage) (c m : String) :
    setErrorOnLast (base ++ [⟨Role.assistant, c⟩]) m =
      base ++ [⟨Role.assistant, "Error: " ++ m⟩] :=
  updateLast_concat base c _

theorem appendToLast_concat (base : List ChatMessage) (c t : String) :
    appendToLast (base ++ [⟨Role.assistant, c⟩]) t =
      base ++ [⟨Role.assistant, c ++ t⟩] :=
  updateLast_concat base c _

theorem lastContent_concat (base : List ChatMessage) (m : ChatMessage) :
    lastContent (base ++ [m]) = some m.content := by
  simp [lastContent, List.getLast?_concat]

theorem processLine_cases (msgs : List ChatMessage) (line : String) :
    processLine msgs line = msgs ∨ ∃ t, processLine msgs line = appendToLast msgs t := by
  unfold processLine
  cases stripDataTag line with
  | none => exact Or.inl rfl
  | some data =>
    by_cases hd : data = "[DONE]"
    · simp [hd]
    · simp only [if_neg hd]
      cases Json.parse data with
      | none => exact Or.inl rfl
      | some parsed =>
        by_cases hc : isContentDelta parsed
        · exact Or.inr ⟨deltaText parsed, by simp [hc]⟩
        · simp [hc]

theorem processLine_concat (base : List ChatMessage) (c line : String) :
    ∃ c', processLine (base ++ [⟨Role.assistant, c⟩]) line =
      base ++ [⟨Role.assistant, c'⟩] := by
  rcases processLine_cases (base ++ [⟨Role.assistant, c⟩]) line with h | ⟨t, h⟩
  · exact ⟨c, h⟩
  · exact ⟨c ++ t, by rw [h]; exact appendToLast_concat base c t⟩

theorem foldl_processLine_concat (lines : List String) (base : List ChatMessage)
    (c : String) :
    ∃ c', lines.foldl processLine (base ++ [⟨Role.assistant, c⟩]) =
      base ++ [⟨Role.assistant, c'⟩] := by
  induction lines generalizing c with
  | nil => exact ⟨c, rfl⟩
  | cons l ls ih =>
    obtain ⟨c1, h1⟩ := processLine_concat base c l
    obtain ⟨c2, h2⟩ := ih c1
    exact ⟨c2, by rw [List.foldl_cons, h1, h2]⟩

theorem processChunk_concat (base : List ChatMessage) (c chunk : String) :
    ∃ c', processChunk (base ++ [⟨Role.assistant, c⟩]) chunk =
      base ++ [⟨Role.assistant, c'⟩] :=
  foldl_processLine_concat (splitLines chunk) base c

theorem processStream_concat (chunks : List String) (base : List ChatMessage)
    (c : String) :
    ∃ c', processStream (base ++ [⟨Role.assistant, c⟩]) chunks =
      base ++ [⟨Role.assistant, c'⟩] := by
  induction chunks generalizing c with
  | nil => exact ⟨c, rfl⟩
  | cons ch chs ih =>
    obtain ⟨c1, h1⟩ := processChunk_concat base c ch
    obtain ⟨c2, h2⟩ := ih c1
    exact ⟨c2, by simp only [processStream, List.foldl_cons] at h2 ⊢; rw [h1, h2]⟩

theorem runBody_concat (base : List ChatMessage) (c : String) (key : Option String)
    (outcome : FetchOutcome) :
    ∃ c', runBody (base ++ [⟨Role.assistant, c⟩]) key outcome =
      base ++ [⟨Role.assistant, c'⟩] := by
  unfold runBody
  cases key with
  | none => exact ⟨"Error: " ++ "VITE_COHERE_KEY not set", setErrorOnLast_concat base c _⟩
  | some k =>
    cases outcome with
    | networkError m => exact ⟨"Error: " ++ m, setErrorOnLast_concat base c m⟩
    | response status body =>
      cases hok : responseOk status with
      | true =>
        simp only [hok, if_true]
        cases body with
        | none => exact ⟨"Error: " ++ "No response body", setErrorOnLast_concat base c _⟩
        | some sb =>
          obtain ⟨chunks, rf⟩ := sb
          obtain ⟨c1, h1⟩ := processStream_concat chunks base c
          cases rf with
          | none => exact ⟨c1, h1⟩
          | some m =>
            refine ⟨"Error: " ++ m, ?_⟩
            show setErrorOnLast (processStream (base ++ [⟨Role.assistant, c⟩]) chunks) m =
              base ++ [⟨Role.assistant, "Error: " ++ m⟩]
            rw [h1]
            exact setErrorOnLast_concat base c1 m
      | false =>
        simp only [hok, if_false]
        exact ⟨"Error: " ++ ("API error: " ++ toString status), setErrorOnLast_concat base c _⟩

theorem string_append_assoc (a b c : String) : a ++ b ++ c = a ++ (b ++ c) := by
  obtain ⟨da⟩ := a
  obtain ⟨db⟩ := b
  obtain ⟨dc⟩ := c
  show String.mk (da ++ db ++ dc) = String.mk (da ++ (db ++ dc))
  rw [List.append_assoc]

/-- `runBody` unfolded at a present key and a delivered response. -/
theorem runBody_response (msgs : List ChatMessage) (k : String) (status : Nat)
    (body : Option StreamBody) :
    runBody msgs (some k) (FetchOutcome.response status body) =
      if responseOk status then
        match body with
        | none => setErrorOnLast msgs "No response body"
        | some sb =>
          let streamed := processStream msgs sb.chunks
          match sb.readFailure with
          | some m => setErrorOnLast streamed m
          | none => streamed
      else setErrorOnLast msgs ("API error: " ++ toString status) := rfl

theorem processStream_eq_lines (msgs : List ChatMessage) (chunks : List String) :
    processStream msgs chunks = ((chunks.map splitLines).flatten).foldl processLine msgs := by
  induction chunks generalizing msgs with
  | nil => rfl
  | cons ch chs ih =>
    simp only [processStream, List.foldl_cons, List.map_cons, List.flatten_cons,
      List.foldl_append]
    exact ih (processChunk msgs ch)

theorem length_mul_le_sum (l : List Nat) (m : Nat) (h : ∀ x ∈ l, m ≤ x) :
    l.length * m ≤ l.sum := by
  induction l with
  | nil => simp
  | cons x xs ih =>
    have hx := h x (List.mem_cons_self x xs)
    have ihh := ih (fun y hy => h y (List.mem_cons_of_mem _ hy))
    calc (x :: xs).length * m = xs.length * m + m := by
          rw [List.length_cons, Nat.succ_mul]
      _ ≤ xs.sum + x := Nat.add_le_add ihh hx
      _ = (x :: xs).sum := by rw [List.sum_cons, Nat.add_comm]

theorem sum_le_length_mul (l : List Nat) (m : Nat) (h : ∀ x ∈ l, x ≤ m) :
    l.sum ≤ l.length * m := by
  induction l with
  | nil => simp
  | cons x xs ih =>
    have hx := h x (List.mem_cons_self x xs)
    have ihh := ih (fun y hy => h y (List.mem_cons_of_mem _ hy))
    calc (x :: xs).sum = x + xs.sum := List.sum_cons
      _ ≤ m + xs.length * m := Nat.add_le_add hx ihh
      _ = (x :: xs).length * m := by rw [List.length_cons, Nat.succ_mul, Nat.add_comm]

theorem foldl_min_le_init (xs : List Nat) (x : Nat) : xs.foldl Nat.min x ≤ x := by
  induction xs generalizing x with
  | nil => exact Nat.le_refl x
  | cons y ys ih => exact Nat.le_trans (ih (Nat.min x y)) (Nat.min_le_left x y)

theorem foldl_min_le_mem : ∀ (xs : List Nat) (x y : Nat), y ∈ xs → xs.foldl Nat.min x ≤ y
  | [], _, _, hy => nomatch hy
  | z :: zs, x, y, hy => by
    rcases List.mem_cons.mp hy with h | h
    · subst h
      exact Nat.le_trans (foldl_min_le_init zs (Nat.min x y)) (Nat.min_le_right x y)
    · exact foldl_min_le_mem zs (Nat.min x z) y h

theorem minList_le (l : List Nat) (x : Nat) (h : x ∈ l) : minList l ≤ x := by
  cases l with
  | nil => cases h
  | cons y ys =>
    rcases List.mem_cons.mp h with h | h
    · subst h; exact foldl_min_le_init ys x
    · exact foldl_min_le_mem ys y x h

theorem init_le_foldl_max (xs : List Nat) (x : Nat) : x ≤ xs.foldl Nat.max x := by
  induction xs generalizing x with
  | nil => exact Nat.le_refl x
  | cons y ys ih => exact Nat.le_trans (Nat.le_max_left x y) (ih (Nat.max x y))

theorem mem_le_foldl_max : ∀ (xs : List Nat) (x y : Nat), y ∈ xs → y ≤ xs.foldl Nat.max x
  | [], _, _, hy => nomatch hy
  | z :: zs, x, y, hy => by
    rcases List.mem_cons.mp hy with h | h
    · subst h
      exact Nat.le_trans (Nat.le_max_right x y) (init_le_foldl_max zs (Nat.max x y))
    · exact mem_le_foldl_max zs (Nat.max x z) y h

theorem le_maxList (l : List Nat) (x : Nat) (h : x ∈ l) : x ≤ maxList l := by
  cases l with
  | nil => cases h
  | cons y ys =>
    rcases List.mem_cons.mp h with h | h
    · subst h; exact init_le_foldl_max ys x
    · exact mem_le_foldl_max ys y x h

theorem le_jsRound (s k m : Nat) (hk : 0 < k) (h : k * m ≤ s) : m ≤ jsRound s k := by
  unfold jsRound
  rw [Nat.le_div_iff_mul_le (by omega : 0 < 2 * k)]
  calc m * (2 * k) = 2 * (k * m) := by ring
    _ ≤ 2 * s := Nat.mul_le_mul_left 2 h
    _ ≤ 2 * s + k := Nat.le_add_right _ _

theorem jsRound_le (s k m : Nat) (hk : 0 < k) (h : s ≤ k * m) : jsRound s k ≤ m := by
  unfold jsRound
  have h2 : 0 < 2 * k := by omega
  have hlt : (2 * s + k) / (2 * k) < m + 1 := by
    rw [Nat.div_lt_iff_lt_mul h2]
    have e : (m + 1) * (2 * k) = 2 * (k * m) + (k + k) := by ring
    have h3 : 2 * s ≤ 2 * (k * m) := Nat.mul_le_mul_left 2 h
    calc 2 * s + k ≤ 2 * (k * m) + k := Nat.add_le_add h3 (Nat.le_refl k)
      _ < 2 * (k * m) + (k + k) := by omega
      _ = (m + 1) * (2 * k) := e.symm
  exact Nat.lt_succ_iff.mp hlt

/-! ### Claim theorems -/

/-- C1: for every run of the averaged latency test in which at least one of
the N probes succeeds, the result is a success whose `testCount` is the
number of successful samples (at most N), whose `latency` equals
`Math.round` of the successful samples' mean, and that mean lies between the
minimum and the maximum sample. -/
theorem C1_average_latency (outcomes : List (Option Nat))
    (h : 0 < (outcomes.filterMap id).length) :
    (testAverageConnection outcomes).2.status = PingStatus.success ∧
    (testAverageConnection outcomes).2.testCount = some (outcomes.filterMap id).length ∧
    (outcomes.filterMap id).length ≤ outcomes.length ∧
    (testAverageConnection outcomes).2.latency =
      some (jsRound (outcomes.filterMap id).sum (outcomes.filterMap id).length) ∧
    minList (outcomes.filterMap id) ≤
      jsRound (outcomes.filterMap id).sum (outcomes.filterMap id).length ∧
    jsRound (outcomes.filterMap id).sum (outcomes.filterMap id).length ≤
      maxList (outcomes.filterMap id) := by
  have hmin : ∀ x ∈ outcomes.filterMap id,
      minList (outcomes.filterMap id) ≤ x :=
    fun x hx => minList_le _ x hx
  have hmax : ∀ x ∈ outcomes.filterMap id, x ≤ maxList (outcomes.filterMap id) :=
    fun x hx => le_maxList _ x hx
  have h1 := length_mul_le_sum (outcomes.filterMap id) _ hmin
  have h2 := sum_le_length_mul (outcomes.filterMap id) _ hmax
  refine ⟨?_, ?_, List.length_filterMap_le id outcomes, ?_,
    le_jsRound _ _ _ h h1, jsRound_le _ _ _ h h2⟩
  · simp [testAverageConnection, h]
  · simp [testAverageConnection, h]
  · simp [testAverageConnection, h]

/-- Closed witness for C1 at the probe outcomes `[some 10, none, some 20]`. -/
theorem C1_average_latency_witness :
    0 < (([some 10, none, some 20] : List (Option Nat)).filterMap id).length ∧
    ((testAverageConnection [some 10, none, some 20]).2.status = PingStatus.success ∧
    (testAverageConnection [some 10, none, some 20]).2.testCount =
      some (([some 10, none, some 20] : List (Option Nat)).filterMap id).length ∧
    (([some 10, none, some 20] : List (Option Nat)).filterMap id).length ≤
      ([some 10, none, some 20] : List (Option Nat)).length ∧
    (testAverageConnection [some 10, none, some 20]).2.latency =
      some (jsRound (([some 10, none, some 20] : List (Option Nat)).filterMap id).sum
        (([some 10, none, some 20] : List (Option Nat)).filterMap id).length) ∧
    minList (([some 10, none, some 20] : List (Option Nat)).filterMap id) ≤
      jsRound (([some 10, none, some 20] : List (Option Nat)).filterMap id).sum
        (([some 10, none, some 20] : List (Option Nat)).filterMap id).length ∧
    jsRound (([some 10, none, some 20] : List (Option Nat)).filterMap id).sum
        (([some 10, none, some 20] : List (Option Nat)).filterMap id).length ≤
      maxList (([some 10, none, some 20] : List (Option Nat)).filterMap id)) :=
  ⟨by decide, C1_average_latency [some 10, none, some 20] (by decide)⟩

/-- C2 counterexample: the claim treats every 2xx/3xx status as success, but
at status 304 (a 3xx status inside the claimed success range) the probe
returns `null`, because `response.ok` holds only for 200–299. -/
theorem C2_counterexample :
    (200 ≤ 304 ∧ 304 ≤ 399) ∧
    singlePing (PingFetch.resolved 304 50) = none ∧
    singlePing (PingFetch.resolved 304 50) ≠ some 50 := by
  exact ⟨by decide, rfl, by decide⟩

/-- C2 (amended): a single probe returns the elapsed integer milliseconds
exactly when the fetch resolves with an HTTP status in 200–299
(`response.ok`); on a network failure or any other status it returns
`null`. -/
theorem C2_single_ping (fo : PingFetch) :
    (∀ s e, fo = PingFetch.resolved s e → 200 ≤ s → s ≤ 299 →
      singlePing fo = some e) ∧
    (∀ s e, fo = PingFetch.resolved s e → ¬(200 ≤ s ∧ s ≤ 299) →
      singlePing fo = none) ∧
    (fo = PingFetch.fetchFailed → singlePing fo = none) := by
  refine ⟨?_, ?_, ?_⟩
  · intro s e he h1 h2
    subst he
    simp [singlePing, responseOk, h1, h2]
  · intro s e he hn
    subst he
    simp [singlePing, responseOk, hn]
  · intro he
    subst he
    rfl

/-- Closed witness for C2's amended theorem at statuses 204, 500, and at a
network failure. -/
theorem C2_single_ping_witness :
    singlePing (PingFetch.resolved 204 42) = some 42 ∧
    singlePing (PingFetch.resolved 500 42) = none ∧
    singlePing PingFetch.fetchFailed = none :=
  ⟨(C2_single_ping (PingFetch.resolved 204 42)).1 204 42 rfl (by decide) (by decide),
   (C2_single_ping (PingFetch.resolved 500 42)).2.1 500 42 rfl (by decide),
   (C2_single_ping PingFetch.fetchFailed).2.2 rfl⟩

/-- C3: a whole `data: `-prefixed line whose payload is neither the `[DONE]`
sentinel nor unparsable, and whose envelope has type `content-delta`,
appends the fragment at `delta.message.content.text` (empty when missing)
to the last assistant turn; and the spec's two-event stream followed by
`data: [DONE]` yields a final assistant content of exactly `"Hi there"`. -/
theorem C3_stream_reducer (msgs : List ChatMessage) (line payload : String) (j : Json)
    (hline : line.toList = "data: ".toList ++ payload.toList)
    (hdone : payload ≠ "[DONE]")
    (hparse : Json.parse payload = some j)
    (hcd : isContentDelta j = true) :
    processLine msgs line = appendToLast msgs (deltaText j) ∧
    lastContent (processStream chatEx0 [exChunk1, exChunk2, exChunk3]) =
      some "Hi there" := by
  constructor
  · unfold processLine
    rw [stripDataTag_eq line payload hline]
    simp [hdone, hparse, hcd]
  · rfl

/-- Closed witness for C3 at the spec's first event line. -/
theorem C3_stream_reducer_witness :
    processLine chatEx0 exLine1 = appendToLast chatEx0 (deltaText exJson1) ∧
    lastContent (processStream chatEx0 [exChunk1, exChunk2, exChunk3]) =
      some "Hi there" :=
  C3_stream_reducer chatEx0 exLine1 exPayload1 exJson1 rfl (by decide) rfl rfl

/-- C4: every failing exchange (missing key, network-level error, non-2xx
status, or a read failure after partial streaming) overwrites the last
assistant turn's content wholesale with `Error: <message>`; a non-ok status
produces `Error: API error: <status>`. -/
theorem C4_error_overwrite (st : ChatState) (key : Option String)
    (outcome : FetchOutcome)
    (hin : jsTrim st.chatInput ≠ "") (hload : st.chatLoading = false) :
    (key = none →
      lastContent (sendChatMessage st key outcome).chatMessages =
        some "Error: VITE_COHERE_KEY not set") ∧
    (∀ m, key.isSome → outcome = FetchOutcome.networkError m →
      lastContent (sendChatMessage st key outcome).chatMessages =
        some ("Error: " ++ m)) ∧
    (∀ status body, key.isSome → outcome = FetchOutcome.response status body →
      responseOk status = false →
      lastContent (sendChatMessage st key outcome).chatMessages =
        some ("Error: API error: " ++ toString status)) ∧
    (∀ status chunks m, key.isSome →
      outcome = FetchOutcome.response status (some ⟨chunks, some m⟩) →
      responseOk status = true →
      lastContent (sendChatMessage st key outcome).chatMessages =
        some ("Error: " ++ m)) := by
  have hmsgs : (sendChatMessage st key outcome).chatMessages =
      runBody ((st.chatMessages ++ [⟨Role.user, jsTrim st.chatInput⟩]) ++
        [⟨Role.assistant, ""⟩]) key outcome := by
    simp [sendChatMessage, hin, hload]
  refine ⟨?_, ?_, ?_, ?_⟩
  · intro hk
    subst hk
    rw [hmsgs]
    show lastContent (setErrorOnLast _ "VITE_COHERE_KEY not set") = _
    rw [setErrorOnLast_concat, lastContent_concat]
    rfl
  · intro m hk ho
    obtain ⟨k, hk⟩ := Option.isSome_iff_exists.mp hk
    subst hk; subst ho
    rw [hmsgs]
    show lastContent (setErrorOnLast _ m) = _
    rw [setErrorOnLast_concat, lastContent_concat]
  · intro status body hk ho hok
    obtain ⟨k, hk⟩ := Option.isSome_iff_exists.mp hk
    subst hk; subst ho
    rw [hmsgs, runBody_response, hok]
    show lastContent (setErrorOnLast _ ("API error: " ++ toString status)) = _
    rw [setErrorOnLast_concat, lastContent_concat]
    show some ("Error: " ++ ("API error: " ++ toString status)) = _
    rw [← string_append_assoc]
    rfl
  · intro status chunks m hk ho hok
    obtain ⟨k, hk⟩ := Option.isSome_iff_exists.mp hk
    subst hk; subst ho
    rw [hmsgs, runBody_response, hok]
    show lastContent (setErrorOnLast (processStream _ chunks) m) = _
    obtain ⟨c1, h1⟩ := processStream_concat chunks
      (st.chatMessages ++ [⟨Role.user, jsTrim st.chatInput⟩]) ""
    rw [h1, setErrorOnLast_concat, lastContent_concat]

/-- Closed witness for C4: an HTTP 500 yields exactly
`Error: API error: 500`; a read failure after a streamed fragment replaces
the partial content wholesale; a missing key reports itself. -/
theorem C4_error_overwrite_witness :
    lastContent (sendChatMessage ⟨[], "hello", false⟩ (some "k")
      (FetchOutcome.response 500 none)).chatMessages =
      some "Error: API error: 500" ∧
    lastContent (sendChatMessage ⟨[], "hello", false⟩ (some "k")
      (FetchOutcome.response 200 (some ⟨[exChunk1], some "read failed"⟩))).chatMessages =
      some "Error: read failed" ∧
    lastContent (sendChatMessage ⟨[], "hello", false⟩ none
      (FetchOutcome.networkError "boom")).chatMessages =
      some "Error: VITE_COHERE_KEY not set" :=
  ⟨(C4_error_overwrite ⟨[], "hello", false⟩ (some "k")
      (FetchOutcome.response 500 none) (by decide) rfl).2.2.1 500 none rfl rfl rfl,
   (C4_error_overwrite ⟨[], "hello", false⟩ (some "k")
      (FetchOutcome.response 200 (some ⟨[exChunk1], some "read failed"⟩))
      (by decide) rfl).2.2.2 200 [exChunk1] "read failed" rfl rfl rfl,
   (C4_error_overwrite ⟨[], "hello", false⟩ none
      (FetchOutcome.networkError "boom") (by decide) rfl).1 rfl⟩

/-- C5: every accepted submission appends exactly one user turn carrying the
trimmed input followed by one assistant turn created empty, and the whole
exchange mutates only that last assistant turn — every earlier turn is
unchanged. -/
theorem C5_transcript_invariant (st : ChatState) (key : Option String)
    (outcome : FetchOutcome)
    (hin : jsTrim st.chatInput ≠ "") (hload : st.chatLoading = false) :
    (sendChatMessage st key outcome).chatMessages =
      runBody (st.chatMessages ++
        [⟨Role.user, jsTrim st.chatInput⟩, ⟨Role.assistant, ""⟩]) key outcome ∧
    ∃ c, (sendChatMessage st key outcome).chatMessages =
      st.chatMessages ++ [⟨Role.user, jsTrim st.chatInput⟩, ⟨Role.assistant, c⟩] := by
  constructor
  · simp [sendChatMessage, hin, hload]
  · obtain ⟨c, hc⟩ := runBody_concat
      (st.chatMessages ++ [⟨Role.user, jsTrim st.chatInput⟩]) "" key outcome
    refine ⟨c, ?_⟩
    have : (sendChatMessage st key outcome).chatMessages =
        runBody ((st.chatMessages ++ [⟨Role.user, jsTrim st.chatInput⟩]) ++
          [⟨Role.assistant, ""⟩]) key outcome := by
      simp [sendChatMessage, hin, hload]
    rw [this, hc, List.append_assoc]
    rfl

/-- Closed witness for C5 at a transcript that already holds one exchange. -/
theorem C5_transcript_invariant_witness :
    (sendChatMessage ⟨[⟨Role.user, "a"⟩, ⟨Role.assistant, "b"⟩], " hello ", false⟩
        none (FetchOutcome.networkError "m")).chatMessages =
      runBody ([⟨Role.user, "a"⟩, ⟨Role.assistant, "b"⟩] ++
        [⟨Role.user, jsTrim " hello "⟩, ⟨Role.assistant, ""⟩]) none
        (FetchOutcome.networkError "m") ∧
    ∃ c, (sendChatMessage ⟨[⟨Role.user, "a"⟩, ⟨Role.assistant, "b"⟩], " hello ", false⟩
        none (FetchOutcome.networkError "m")).chatMessages =
      [⟨Role.user, "a"⟩, ⟨Role.assistant, "b"⟩] ++
        [⟨Role.user, jsTrim " hello "⟩, ⟨Role.assistant, c⟩] :=
  C5_transcript_invariant ⟨[⟨Role.user, "a"⟩, ⟨Role.assistant, "b"⟩], " hello ", false⟩
    none (FetchOutcome.networkError "m") (by decide) rfl

/-- C6: while an exchange is in flight (`chatLoading` set), a further
submission is rejected with no observable effect on the chat state. -/
theorem C6_reject_while_loading (st : ChatState) (key : Option String)
    (outcome : FetchOutcome) (h : st.chatLoading = true) :
    sendChatMessage st key outcome = st := by
  simp [sendChatMessage, h]

/-- Closed witness for C6. -/
theorem C6_reject_while_loading_witness :
    sendChatMessage ⟨[], "second message", true⟩ (some "k")
      (FetchOutcome.networkError "m") = ⟨[], "second message", true⟩ :=
  C6_reject_while_loading ⟨[], "second message", true⟩ (some "k")
    (FetchOutcome.networkError "m") rfl

/-- C7: when all N probes fail, the averaged test's result is an error and
carries no numeric fields (`latency`, `testCount`, `allLatencies` all
absent), for every N. -/
theorem C7_all_fail_error (outcomes : List (Option Nat))
    (h : ∀ o ∈ outcomes, o = none) :
    (testAverageConnection outcomes).2 =
      { url := "cloudflare.com", latency := none, status := PingStatus.error,
        isAverage := some true, testCount := none, allLatencies := none } := by
  have hnil : outcomes.filterMap id = [] := List.filterMap_eq_nil_iff.mpr h
  simp [testAverageConnection, hnil]

/-- Closed witness for C7 at two failing probes. -/
theorem C7_all_fail_error_witness :
    (testAverageConnection [none, none]).2 =
      { url := "cloudflare.com", latency := none, status := PingStatus.error,
        isAverage := some true, testCount := none, allLatencies := none } :=
  C7_all_fail_error [none, none] (by decide)

/-- C8 counterexample: the claim has the progress callback fire after each
probe completes, but in the loop `setAvgProgress(i + 1)` runs before the
probe is awaited: already for a single probe the trace starts with the
progress event, not with the probe. -/
theorem C8_counterexample :
    avgLoopEvents 0 [some 10] =
      [AvgEvent.progress 1, AvgEvent.probe 1 (some 10)] ∧
    c8ClaimEvents 0 [some 10] =
      [AvgEvent.probe 1 (some 10), AvgEvent.progress 1] ∧
    avgLoopEvents 0 [some 10] ≠ c8ClaimEvents 0 [some 10] :=
  ⟨rfl, rfl, by decide⟩

/-- C8 (amended): the progress callback fires exactly once per probe,
immediately before that probe begins, with the probe's 1-based index — so
while probe i runs the reported progress is i. -/
theorem C8_progress_order (i : Nat) (outs : List (Option Nat)) :
    (avgLoopEvents i outs).filter notSleep =
      ((List.enumFrom i outs).map
        (fun p => [AvgEvent.progress (p.1 + 1), AvgEvent.probe (p.1 + 1) p.2])).flatten := by
  induction outs generalizing i with
  | nil => rfl
  | cons o rest ih =>
    cases rest with
    | nil => rfl
    | cons r rs =>
      show (AvgEvent.progress (i + 1) :: AvgEvent.probe (i + 1) o ::
          AvgEvent.sleep 200 :: avgLoopEvents (i + 1) (r :: rs)).filter notSleep = _
      simp only [List.filter_cons, notSleep, List.enumFrom, List.map_cons,
        List.flatten_cons]
      rw [ih (i + 1)]
      rfl

/-- C9: a `data: `-prefixed line whose payload `JSON.parse` rejects is
silently discarded — removing it from the line sequence does not change the
fold — and concretely inserting `data: not-json` into the spec's stream
leaves the final transcript identical. -/
theorem C9_malformed_skipped (msgs : List ChatMessage) (pre post : List String)
    (bad payload : String)
    (hbad : bad.toList = "data: ".toList ++ payload.toList)
    (hdone : payload ≠ "[DONE]")
    (hparse : Json.parse payload = none) :
    (pre ++ bad :: post).foldl processLine msgs =
      (pre ++ post).foldl processLine msgs ∧
    processStream chatEx0 [exChunk1, exBadChunk, exChunk2, exChunk3] =
      processStream chatEx0 [exChunk1, exChunk2, exChunk3] := by
  constructor
  · have hno : ∀ ms : List ChatMessage, processLine ms bad = ms := by
      intro ms
      unfold processLine
      rw [stripDataTag_eq bad payload hbad]
      simp [hdone, hparse]
    rw [List.foldl_append, List.foldl_append, List.foldl_cons, hno]
  · rfl

/-- Closed witness for C9 at the line `data: not-json` inserted between the
spec's two events. -/
theorem C9_malformed_skipped_witness :
    ([exLine1] ++ "data: not-json" :: ["data: " ++ exPayload2, "data: [DONE]"]).foldl
        processLine chatEx0 =
      ([exLine1] ++ ["data: " ++ exPayload2, "data: [DONE]"]).foldl processLine chatEx0 ∧
    processStream chatEx0 [exChunk1, exBadChunk, exChunk2, exChunk3] =
      processStream chatEx0 [exChunk1, exChunk2, exChunk3] :=
  C9_malformed_skipped chatEx0 [exLine1] ["data: " ++ exPayload2, "data: [DONE]"]
    "data: not-json" "not-json" rfl (by decide) rfl

/-- C10 (implicit): each chunk is split on newlines independently — the loop
is the plain fold of `processLine` over the per-chunk splits, with no
partial-line carry — so an event line split across two reads loses its
fragment: splitting the spec's first event across two chunks drops `"Hi"`
and yields `" there"` where the unsplit stream yields `"Hi there"`. -/
theorem C10_split_line_dropped :
    (∀ (msgs : List ChatMessage) (chunks : List String),
      processStream msgs chunks =
        ((chunks.map splitLines).flatten).foldl processLine msgs) ∧
    exSplitA ++ exSplitB = exChunk1 ∧
    lastContent (processStream chatEx0 [exSplitA, exSplitB, exChunk2, exChunk3]) =
      some " there" ∧
    lastContent (processStream chatEx0 [exChunk1, exChunk2, exChunk3]) =
      some "Hi there" :=
  ⟨processStream_eq_lines, rfl, rfl, rfl⟩

end VpnCheck
